import Mathlib

/-
Verification development for the Mysteryem/Miscellaneous Blender-script repository.

Each namespace shallowly embeds one script (or the part of one script the
corresponding claims are about).  Host floating-point values are modelled as
exact rationals, host collections as lists, and Python exceptions as Option
results (none = the script raises).
-/

/-! ## UnAtlasSelection.py -/

namespace UnAtlas

/-- One UV loop element: its coordinate and whether it is selected. -/
structure UV where
  u : ℚ
  v : ℚ
  select : Bool
deriving DecidableEq

/-- The while-loop body of get_division_size, started at the current value of
the quantity normalized_length * 2^n.  The Python loop tests successive n;
testing normalized_length > 1/2^n is the same as testing the doubled quantity
against 1, so the loop is embedded by doubling the argument each iteration.
Returns the number of iterations the Python loop performs before returning,
i.e. the least n with normalized_length > 1/2^n. -/
def gds_loop (q : ℚ) (hq : 0 < q) : ℕ :=
  if 1 < q then 0
  else gds_loop (2 * q) (by positivity) + 1
termination_by (⌈2/q⌉).toNat
decreasing_by
  rename_i hnot
  have h1 : (1:ℚ) ≤ 1/q := (le_div_iff₀ hq).mpr (by linarith)
  have h2 : 1/q + 1 ≤ 2/q := by
    have : (2:ℚ)/q = 1/q + 1/q := by ring
    linarith
  have hceil1 : (1:ℤ) ≤ ⌈1/q⌉ := by exact_mod_cast Int.le_ceil_iff.mpr (by push_cast; linarith)
  have hceil2 : ⌈1/q⌉ + 1 ≤ ⌈2/q⌉ := by
    have := Int.ceil_le_ceil (α := ℚ) h2
    calc ⌈1/q⌉ + 1 = ⌈1/q + (1:ℤ)⌉ := by rw [Int.ceil_add_int]
    _ ≤ ⌈2/q⌉ := by exact_mod_cast Int.ceil_le_ceil h2
  have : (2:ℚ)/(2*q) = 1/q := by
    field_simp
  rw [this]
  omega

/-- get_division_size: raises (none) when normalized_length is not positive,
otherwise runs the while loop and returns n - 1 for the n at which the loop
stops. -/
def get_division_size (normalized_length : ℚ) : Option ℤ :=
  if h : 0 < normalized_length then some ((gds_loop normalized_length h : ℤ) - 1)
  else none

/-- Python int() applied to a rational: truncation toward zero. -/
def py_int (q : ℚ) : ℤ :=
  if q < 0 then ⌈q⌉ else ⌊q⌋

/-- find_closest_division(divisions, normalized_value) = int(normalized_value * divisions). -/
def find_closest_division (divisions : ℚ) (normalized_value : ℚ) : ℤ :=
  py_int (normalized_value * divisions)

/-- The selection-transforming part of the UnAtlasSelection script, acting on
the flattened list of UV loop elements of the active UV layer.  Returns none
when get_division_size raises.  When no UV is selected the script does
nothing. -/
def unatlas_script (allow_non_square : Bool) (uvs : List UV) : Option (List UV) :=
  let selected_uvs := uvs.filter (·.select)
  if selected_uvs.isEmpty then some uvs else
  match (selected_uvs.map (·.u)).max?, (selected_uvs.map (·.u)).min?,
        (selected_uvs.map (·.v)).max?, (selected_uvs.map (·.v)).min? with
  | some max_u, some min_u, some max_v, some min_v =>
    let x_bb_length := max_u - min_u
    let y_bb_length := max_v - min_v
    match get_division_size x_bb_length, get_division_size y_bb_length with
    | some xs, some ys =>
      let x_division_size := if allow_non_square then xs else min xs ys
      let y_division_size := if allow_non_square then ys else min xs ys
      let x_divisions : ℚ := (2:ℚ) ^ x_division_size
      let y_divisions : ℚ := (2:ℚ) ^ y_division_size
      let min_texture_u : ℚ := (find_closest_division x_divisions min_u : ℚ) / x_divisions
      let min_texture_v : ℚ := (find_closest_division y_divisions min_v : ℚ) / y_divisions
      some (uvs.map (fun uv =>
        if uv.select then
          { uv with u := (uv.u - min_texture_u) * x_divisions,
                    v := (uv.v - min_texture_v) * y_divisions }
        else uv))
    | _, _ => none
  | _, _, _, _ => some uvs

end UnAtlas

/-! ## BoneCycleHierarchy.py -/

namespace BoneCycle

/-- A bone, identified by id (standing for Python object identity), with the
fields the operator reads and writes. -/
structure Bone where
  id : ℕ
  name : String
  hide : Bool
  hide_select : Bool
  select : Bool
  select_head : Bool
  select_tail : Bool
deriving DecidableEq

inductive Direction where
  | forwards
  | backwards
deriving DecidableEq

inductive Order where
  | default
  | alphabetical
deriving DecidableEq

inductive Status where
  | finished
  | cancelled
deriving DecidableEq

/-- Reordering of the sibling list done by execute before building the chain:
sorted by name (stable, optionally reversed) for ALPHABETICAL ordering,
reversed for DEFAULT ordering with direction BACKWARDS. -/
def order_siblings (direction : Direction) (order : Order) (siblings : List Bone) : List Bone :=
  match order with
  | .alphabetical =>
    match direction with
    | .backwards => siblings.mergeSort (fun a b => decide (b.name ≤ a.name))
    | .forwards => siblings.mergeSort (fun a b => decide (a.name ≤ b.name))
  | .default =>
    match direction with
    | .backwards => siblings.reverse
    | .forwards => siblings

/-- The filter applied to the sibling chain: select_hierarchy does not select
hidden or selection-hidden bones, so the operator skips them. -/
def bone_selectable (b : Bone) : Bool :=
  !b.hide && !b.hide_select

/-- All siblings, in order from the active bone, excluding the active bone
(itertools.chain of the slices after and before the active index). -/
def siblings_chain (ordered : List Bone) (active_index : ℕ) : List Bone :=
  ordered.drop (active_index + 1) ++ ordered.take active_index

/-- Setting (or clearing) the three selection flags of a bone. -/
def set_bone_selection (value : Bool) (b : Bone) : Bone :=
  { b with select := value, select_head := value, select_tail := value }

/-- MYSTERYEM_bone_cycle_hierarchy.execute, for an active bone with parent:
siblings is the list of children of the parent and active_id identifies the active
bone within it.  Returns the status, the updated sibling list, and the id of
the bone that is active afterwards. -/
def execute (direction : Direction) (extend : Bool) (order : Order)
    (siblings : List Bone) (active_id : ℕ) : Status × List Bone × ℕ :=
  let ordered := order_siblings direction order siblings
  let active_index := ordered.findIdx (fun b => b.id = active_id)
  let chain := (siblings_chain ordered active_index).filter bone_selectable
  match chain.head? with
  | some next_bone =>
    let after_deselect :=
      if extend then siblings
      else siblings.map (fun b => if b.id = active_id then set_bone_selection false b else b)
    let after_select :=
      after_deselect.map (fun b => if b.id = next_bone.id then set_bone_selection true b else b)
    (.finished, after_select, next_bone.id)
  | none => (.cancelled, siblings, active_id)

end BoneCycle

/-! ## SelectAllByTraitNumberOfVertexGroups.py -/

namespace SelectVG

inductive CmpType where
  | not_equal
  | greater_than
  | equal_to
  | less_than
deriving DecidableEq

inductive Subset where
  | all
  | bone_deform
  | other_deform
deriving DecidableEq

/-- A pose bone of an armature object referenced by an armature modifier. -/
structure PoseBone where
  name : String
  use_deform : Bool
deriving DecidableEq

/-- A modifier of a mesh object; mod_object is the pose-bone list of the
armature object it points at (none when the modifier has no object). -/
structure Modifier where
  is_armature : Bool
  show_viewport : Bool
  mod_object : Option (List PoseBone)
deriving DecidableEq

/-- A BMesh vertex: hide/select flags and the deform-layer entry, a list of
(group index, weight) pairs with distinct group indices. -/
structure Vert where
  hide : Bool
  select : Bool
  dvert : List (ℕ × ℚ)
deriving DecidableEq

/-- A mesh object in edit mode, with its vertex-group names, modifiers,
BMesh vertices, and whether the BMesh has an active deform layer. -/
structure Obj where
  vertex_group_names : List String
  modifiers : List Modifier
  verts : List Vert
  has_deform_layer : Bool
deriving DecidableEq

/-- The dict {vg.name: i for i, vg in enumerate(obj.vertex_groups)}: lookup
returns the index of the last group with the given name (later dict entries
overwrite earlier ones; group names are unique in practice). -/
def vg_names_to_indices (names : List String) : List (String × ℕ) :=
  (names.enum.map (fun p => (p.2, p.1))).reverse

/-- get_deform_indices(obj): the set (as a deduplicated list) of vertex-group
indices whose name matches a deform bone of a visible armature modifier. -/
def get_deform_indices (obj : Obj) : List ℕ :=
  let dict := vg_names_to_indices obj.vertex_group_names
  let valid_mod_bones := obj.modifiers.filterMap (fun m =>
    if m.is_armature && m.mod_object.isSome && m.show_viewport then m.mod_object else none)
  let all_bones := valid_mod_bones.flatMap id
  let deform_bones_only := all_bones.filter
    (fun b => b.use_deform && (dict.lookup b.name).isSome)
  (deform_bones_only.filterMap (fun b => dict.lookup b.name)).dedup

/-- The if-else chain choosing the comparison between group_count and the
number property. -/
def apply_cmp (t : CmpType) (group_count number : ℕ) : Bool :=
  match t with
  | .greater_than => group_count > number
  | .not_equal => group_count != number
  | .equal_to => group_count == number
  | .less_than => group_count < number

/-- me.total_vert_sel: the number of selected vertices. -/
def total_vert_sel (verts : List Vert) : ℕ :=
  (verts.filter (·.select)).length

/-- The group count computed for one vertex in the main loop. -/
def group_count (ignore_zero : Bool) (subset_indices : Option (List ℕ))
    (dvert : List (ℕ × ℚ)) : ℕ :=
  match subset_indices with
  | none =>
    if ignore_zero then (dvert.filter (fun p => p.2 ≠ 0)).length
    else dvert.length
  | some idxs =>
    if ignore_zero then (dvert.filter (fun p => p.2 ≠ 0 && p.1 ∈ idxs)).length
    else (idxs.filter (fun i => i ∈ dvert.map Prod.fst)).length

/-- The per-object body of MYSTERYEM_select_all_my_trait_number_vertex_groups
.execute (one iteration of its loop over the objects in mode). -/
def process_obj (number : ℕ) (t : CmpType) (subset : Subset) (ignore_zero : Bool)
    (extend : Bool) (obj : Obj) : Obj :=
  if obj.vertex_group_names.isEmpty then obj
  else if extend && (total_vert_sel obj.verts == obj.verts.length) then obj
  else
    let subset_indices : Option (List ℕ) :=
      match subset with
      | .all => none
      | .bone_deform => some (get_deform_indices obj)
      | .other_deform =>
        some ((List.range obj.vertex_group_names.length).filter
          (fun i => i ∉ get_deform_indices obj))
    if obj.has_deform_layer && (subset_indices.isNone || !(subset_indices.getD []).isEmpty) then
      { obj with verts := obj.verts.map (fun v =>
          if extend && v.select then v
          else if v.hide then v
          else { v with select := apply_cmp t (group_count ignore_zero subset_indices v.dvert) number }) }
    else
      let sel := apply_cmp t 0 number
      if extend && !sel then obj
      else { obj with verts := obj.verts.map (fun v => { v with select := sel }) }

/-- execute: processes every object in mode (objects without vertex groups are
skipped inside process_obj). -/
def execute (number : ℕ) (t : CmpType) (subset : Subset) (ignore_zero : Bool)
    (extend : Bool) (objs : List Obj) : List Obj :=
  objs.map (process_obj number t subset ignore_zero extend)

/-- MYSTERYEM_select_all_my_trait_number_vertex_groups.poll: the returned
flag together with the message passed to poll_message_set (if any). -/
def select_vg_poll (mode : String) (vertex_select_mode : Bool) (objs : List Obj) :
    Bool × Option String :=
  if mode = "EDIT_MESH" ∧ objs ≠ [] then
    if vertex_select_mode then
      if objs.any (fun o => !o.vertex_group_names.isEmpty) then (true, none)
      else (false, some ("No weights/vertex groups on "
        ++ (if objs.length > 1 then "objects" else "object")))
    else (false, some "Must be in vertex selection mode")
  else (false, some "Must be in mesh edit mode")

end SelectVG

/-! ## CopyUVsToOtherUVMap.py -/

namespace CopyUV

/-- Hardcoded Blender limit. -/
def max_uv_layers : ℕ := 8

/-- One UV-layer element of one loop. -/
structure UVElem where
  u : ℚ
  v : ℚ
  pin_uv : Bool
  select : Bool
deriving DecidableEq

/-- A loop: its per-UV-layer elements, parallel to the mesh uv_layer_names. -/
structure Loop where
  elems : List UVElem
deriving DecidableEq

/-- A face: its selection flag and its loops. -/
structure Face where
  select : Bool
  loops : List Loop
deriving DecidableEq

/-- A mesh open in edit mode. -/
structure Mesh where
  name : String
  uv_layer_names : List String
  active_uv_index : ℕ
  faces : List Face
deriving DecidableEq

/-- Operator properties: the two ENUM_FLAG sets as flags, the target name and
the not-found action. -/
inductive NotFoundAction where
  | skip
  | create
  | create_init
deriving DecidableEq

structure Params where
  filter_selected : Bool
  filter_pinned : Bool
  attr_x : Bool
  attr_y : Bool
  attr_pin : Bool
  attr_select : Bool
  target : String
  action : NotFoundAction
deriving DecidableEq

/-- all(filter_func(active_loop) for filter_func in filter_funcs): the
conjunction of the enabled filters. -/
def passes_filters (p : Params) (e : UVElem) : Bool :=
  (!p.filter_selected || e.select) && (!p.filter_pinned || e.pin_uv)

/-- Whether self.attributes is non-empty. -/
def has_attributes (p : Params) : Bool :=
  p.attr_x || p.attr_y || p.attr_pin || p.attr_select

/-- The combined effect of the attribute copy functions on the target element
(X and Y together are merged into the whole-uv copy, which assigns the same
fields). -/
def copy_attributes (p : Params) (src tgt : UVElem) : UVElem :=
  let tgt := if p.attr_x then { tgt with u := src.u } else tgt
  let tgt := if p.attr_y then { tgt with v := src.v } else tgt
  let tgt := if p.attr_pin then { tgt with pin_uv := src.pin_uv } else tgt
  if p.attr_select then { tgt with select := src.select } else tgt

/-- Report emitted through self.report: whether it is an error and its text. -/
structure Report where
  is_error : Bool
  msg : String
deriving DecidableEq

/-- The single-quote character, written without an apostrophe token. -/
def squote : String := String.mk [Char.ofNat 39]

def success_message : String := "UV Copy To...: UVs copied"

def no_changes_message : String := "UV Copy To...: No changes made"

/-- The ERROR_INVALID_INPUT message reported when a mesh is missing the target
UV map but already has the maximum number of UV maps. -/
def cannot_add_message (target mesh_name : String) : String :=
  "The UV Map " ++ squote ++ target ++ squote ++ " can" ++ squote ++ "t be added to the mesh "
    ++ squote ++ mesh_name ++ squote ++ " because it already has the maximum number of UV Maps ("
    ++ toString max_uv_layers ++ "). Execution has been cancelled."

/-- mesh.uv_layers.new(name=target, do_init=init): appends the layer name and
appends one element per loop; with do_init the new element copies the element of the active
layer, otherwise it is a fresh default element. -/
def default_elem : UVElem := ⟨0, 0, false, false⟩

def add_uv_layer (target : String) (do_init : Bool) (m : Mesh) : Mesh :=
  { m with
    uv_layer_names := m.uv_layer_names ++ [target],
    faces := m.faces.map (fun f =>
      { f with loops := f.loops.map (fun l =>
          { elems := l.elems ++
              [if do_init then l.elems.getD m.active_uv_index default_elem else default_elem] }) }) }

/-- The first mesh (in iteration order) that is missing the target UV map and
already has the maximum number of UV maps; the scan loop reports it and
returns. -/
def find_offending_mesh (target : String) (meshes : List Mesh) : Option Mesh :=
  meshes.find? (fun m => target ∉ m.uv_layer_names && m.uv_layer_names.length ≥ max_uv_layers)

/-- Copying into one loop: reads the active and target elements (none models a
host-level failure if either layer element is missing), applies the filters,
and applies the attribute copy functions.  The Bool records whether any
attribute assignment happened (the attributes_modified flag). -/
def copy_loop (p : Params) (active_idx target_idx : ℕ) (l : Loop) : Option (Loop × Bool) :=
  match l.elems.get? active_idx, l.elems.get? target_idx with
  | some active_loop, some target_loop =>
    if passes_filters p active_loop then
      some (⟨l.elems.set target_idx (copy_attributes p active_loop target_loop)⟩, true)
    else some (l, false)
  | _, _ => none

/-- List.mapM specialised bookkeeping: process a list, also or-ing the
modified flags. -/
def mapM_collect {α β : Type} (f : α → Option (β × Bool)) (l : List α) :
    Option (List β × Bool) := do
  let rs ← l.mapM f
  return (rs.map Prod.fst, rs.any Prod.snd)

/-- The per-mesh copy phase: only meshes whose active layer differs from the
target, that have loops, contain the target and were not created initialised
are visited; only visible faces (all of them with UV sync selection, else the
selected ones) are visited. -/
def copy_phase_mesh (p : Params) (uv_select_sync : Bool) (init_created_mesh_names : List String)
    (m : Mesh) : Option (Mesh × Bool) :=
  match m.uv_layer_names.get? m.active_uv_index with
  | none => none
  | some active_name =>
    if active_name ≠ p.target ∧ (m.faces.flatMap (·.loops)) ≠ [] ∧ p.target ∈ m.uv_layer_names
        ∧ m.name ∉ init_created_mesh_names then
      match m.uv_layer_names.indexOf? p.target with
      | none => none
      | some target_idx => do
        let fs ← mapM_collect (fun f =>
          if uv_select_sync || f.select then do
            let ls ← mapM_collect (copy_loop p m.active_uv_index target_idx) f.loops
            return ({ f with loops := ls.1 }, ls.2)
          else some (f, false)) m.faces
        return ({ m with faces := fs.1 }, fs.2)
    else some (m, false)

/-- The tail of execute after the scan/creation phase: the attributes-empty
early exits, the copy loop over all meshes, and the final report. -/
def after_creation (p : Params) (uv_select_sync : Bool)
    (need_target_creation_names init_created_mesh_names : List String)
    (meshes : List Mesh) : Option (Report × List Mesh) :=
  if !has_attributes p then
    if need_target_creation_names ≠ [] then some (⟨false, success_message⟩, meshes)
    else some (⟨false, no_changes_message⟩, meshes)
  else do
    let rs ← mapM_collect (copy_phase_mesh p uv_select_sync init_created_mesh_names) meshes
    if !rs.2 ∧ need_target_creation_names = [] then
      return (⟨false, no_changes_message⟩, rs.1)
    else
      return (⟨false, success_message⟩, rs.1)

/-- MYSTERYEM_copy_uvs_to_other_uvmap.execute over the meshes of the objects
in mode.  none models a Python exception. -/
def execute (p : Params) (uv_select_sync : Bool) (meshes : List Mesh) :
    Option (Report × List Mesh) :=
  let create_target_when_missing := p.action = .create ∨ p.action = .create_init
  let init_during_create := p.action = .create_init
  if meshes.isEmpty then some (⟨false, no_changes_message⟩, meshes)
  else if create_target_when_missing then
    match find_offending_mesh p.target meshes with
    | some offending => some (⟨true, cannot_add_message p.target offending.name⟩, meshes)
    | none =>
      let need_target_creation_names :=
        (meshes.filter (fun m => p.target ∉ m.uv_layer_names)).map (·.name)
      let meshes2 := meshes.map (fun m =>
        if p.target ∈ m.uv_layer_names then m else add_uv_layer p.target init_during_create m)
      let init_created := if init_during_create then need_target_creation_names else []
      after_creation p uv_select_sync need_target_creation_names init_created meshes2
  else after_creation p uv_select_sync [] [] meshes

end CopyUV

/-! ## ExtraShapeKeyOperations.py and transferPendingEditChanges.py -/

namespace ShapeOps

/-- Vertex coordinates and shape-layer values, modelled as exact rationals. -/
abbrev Vec3 := ℚ × ℚ × ℚ

def vadd (a b : Vec3) : Vec3 := (a.1 + b.1, a.2.1 + b.2.1, a.2.2 + b.2.2)

def vsub (a b : Vec3) : Vec3 := (a.1 - b.1, a.2.1 - b.2.1, a.2.2 - b.2.2)

def vsmul (t : ℚ) (a : Vec3) : Vec3 := (t * a.1, t * a.2.1, t * a.2.2)

def vdiv (a : Vec3) (t : ℚ) : Vec3 := (a.1 / t, a.2.1 / t, a.2.2 / t)

/-- mathutils Vector.lerp: componentwise linear interpolation by the factor. -/
def lerp (a b : Vec3) (t : ℚ) : Vec3 := vadd (vsmul (1 - t) a) (vsmul t b)

/-- Python truthiness of a Vector, any(v): some component is non-zero. -/
def any_nonzero (a : Vec3) : Bool := !(a.1 == 0 && a.2.1 == 0 && a.2.2 == 0)

/-- OperatorBase.poll_mode: the flag and the poll message it sets on failure. -/
def poll_mode (mode : String) : Bool × Option String :=
  if mode ≠ "EDIT_MESH" then (false, some "Must be in edit mode") else (true, none)

/-- ClearPendingChanges.poll, where each list entry records whether the mesh of
one object in mode has shape keys. -/
def clear_pending_poll (mode : String) (objs_have_shape_keys : List Bool) :
    Bool × Option String :=
  match poll_mode mode with
  | (false, msg) => (false, msg)
  | _ =>
    if !objs_have_shape_keys.all id then
      (false, some "All meshes in edit mode must have shape keys")
    else (true, none)

/-- A BMesh vertex as read by ClearPendingChanges: coordinate, all shape-layer
values (indexed like bm.verts.layers.shape), and the flags. -/
structure CVert where
  co : Vec3
  shape : List Vec3
  select : Bool
  hide : Bool
deriving DecidableEq

/-- A mesh in edit mode together with the active shape key index of its object and
the number of shape layers of its BMesh. -/
structure CMesh where
  active_shape_key_index : ℕ
  shape_layer_count : ℕ
  verts : List CVert
deriving DecidableEq

def total_vert_sel (verts : List CVert) : ℕ :=
  (verts.filter (·.select)).length

/-- The body of ClearPendingChanges.execute for one object: meshes with no
selected vertex are skipped; otherwise every selected non-hidden vertex gets
its coordinate replaced by its value in the active shape layer.  none models
the exceptions Blender would raise on inconsistent layer data. -/
def clear_mesh (m : CMesh) : Option CMesh :=
  if total_vert_sel m.verts = 0 then some m
  else if m.active_shape_key_index < m.shape_layer_count then do
    let vs ← m.verts.mapM (fun v =>
      if v.select && !v.hide then
        (v.shape.get? m.active_shape_key_index).map (fun c => { v with co := c })
      else some v)
    return { m with verts := vs }
  else none

/-- ClearPendingChanges.execute over all objects in mode. -/
def clear_execute (meshes : List CMesh) : Option (List CMesh) :=
  meshes.mapM clear_mesh

/-- A vertex as seen by the pending-changes transfer code: its coordinate, its
value in the active shape layer, and its value in the layer transferred to. -/
structure TVert where
  co : Vec3
  active : Vec3
  target : Vec3
  select : Bool
  hide : Bool
deriving DecidableEq

/-- The transfer loop of the standalone transferPendingEditChanges.py script:
it visits every vertex of the mesh. -/
def script_transfer (verts : List TVert) : List TVert :=
  verts.map (fun bv =>
    if bv.co ≠ bv.active then
      { bv with target := vadd bv.target (vsub bv.co bv.active), co := bv.active }
    else bv)

/-- The ADD branch of TransferPendingChanges.execute: it visits the selected
non-hidden vertices and uses Vector truthiness for the changed test. -/
def operator_transfer_add (verts : List TVert) : List TVert :=
  verts.map (fun bv =>
    if bv.select && !bv.hide then
      let pending_change := vsub bv.co bv.active
      if any_nonzero pending_change then
        { bv with target := vadd bv.target pending_change, co := bv.active }
      else bv
    else bv)

/-- A mesh as read by AverageShapeKeyMovement: the eligibility data of its
active shape key and its vertices, each carrying its value in the relative key layer of the active
key. -/
structure AVert where
  co : Vec3
  rel : Vec3
  select : Bool
  hide : Bool
deriving DecidableEq

structure AMesh where
  has_active_shape : Bool
  relative_key_is_self : Bool
  use_relative : Bool
  active_is_reference : Bool
  verts : List AVert
deriving DecidableEq

def a_total_vert_sel (verts : List AVert) : ℕ :=
  (verts.filter (·.select)).length

/-- The continue-conditions of the collection loop of
AverageShapeKeyMovement.execute, combined: a mesh is processed when none of
them fires. -/
def eligible (m : AMesh) : Bool :=
  m.has_active_shape && !m.relative_key_is_self && m.use_relative
    && !m.active_is_reference && (a_total_vert_sel m.verts != 0)

/-- The vertices visited by both the collection and the update loops. -/
def processed (m : AMesh) : List AVert :=
  m.verts.filter (fun v => v.select && !v.hide)

/-- The collected (relative_co, movement) pairs over all objects in mode. -/
def collect_movements (meshes : List AMesh) : List (Vec3 × Vec3) :=
  (meshes.filter eligible).flatMap (fun m =>
    (processed m).map (fun v => (v.rel, vsub v.co v.rel)))

/-- AverageShapeKeyMovement.execute. -/
def average_execute (mix : ℚ) (meshes : List AMesh) : List AMesh :=
  if mix = 0 then meshes
  else
    let all_selected := collect_movements meshes
    if all_selected.isEmpty then meshes
    else
      let sum_movement := all_selected.foldl (fun s p => vadd s p.2) (0, 0, 0)
      let average_movement := vdiv sum_movement (all_selected.length : ℚ)
      meshes.map (fun m =>
        if eligible m then
          { m with verts := m.verts.map (fun v =>
              if v.select && !v.hide then
                { v with co :=
                    if mix = 1 then vadd v.rel average_movement
                    else vadd v.rel (lerp (vsub v.co v.rel) average_movement mix) }
              else v) }
        else m)

end ShapeOps

/-! ## moveActiveUVLayer.py -/

namespace MoveUV

/-- One element of a UV layer: the fields swapped by swap_uv_layers. -/
structure LayerElem where
  u : ℚ
  v : ℚ
  pin_uv : Bool
  select : Bool
deriving DecidableEq

structure UVLayer where
  name : String
  data : List LayerElem
deriving DecidableEq

structure Mesh where
  uv_layers : List UVLayer
  active_index : ℕ
deriving DecidableEq

/-- swap_uv_layers: swaps the names of the two layers (through the temporary
name, whose net effect is the exchange) and swaps every field of the elements
at indices below len(layer1.data).  none models the exceptions raised for an
out-of-range layer index or when layer2 runs out of elements. -/
def swap_uv_layers (m : Mesh) (index1 index2 : ℕ) : Option Mesh :=
  match m.uv_layers.get? index1, m.uv_layers.get? index2 with
  | some layer1, some layer2 =>
    if layer1.data.length ≤ layer2.data.length then
      let new1 : UVLayer := ⟨layer2.name, layer2.data.take layer1.data.length⟩
      let new2 : UVLayer :=
        ⟨layer1.name, layer1.data ++ layer2.data.drop layer1.data.length⟩
      some { m with uv_layers := (m.uv_layers.set index1 new1).set index2 new2 }
    else none
  | _, _ => none

/-- move_active_uv_layer_up. -/
def move_active_uv_layer_up (m : Mesh) : Option Mesh :=
  let index := m.active_index
  if index > 0 then
    (swap_uv_layers m (index - 1) index).map (fun m2 => { m2 with active_index := index - 1 })
  else some m

/-- move_active_uv_layer_down. -/
def move_active_uv_layer_down (m : Mesh) : Option Mesh :=
  let index := m.active_index
  if index < m.uv_layers.length - 1 then
    (swap_uv_layers m index (index + 1)).map (fun m2 => { m2 with active_index := index + 1 })
  else some m

end MoveUV

/-! ## Theorems -/

/-- Generic helper: a monadic Option map that succeeds pointwise succeeds as a
whole, with pointwise-related results. -/
theorem list_mapM_some {α β : Type} (f : α → Option β) (l : List α)
    (h : ∀ a ∈ l, ∃ b, f a = some b) :
    ∃ l', l.mapM f = some l' ∧ l'.length = l.length ∧
      ∀ j a, l.get? j = some a → ∃ b, l'.get? j = some b ∧ f a = some b := by
  induction l with
  | nil => exact ⟨[], rfl, rfl, by intro j a hj; simp at hj⟩
  | cons x xs ih =>
    obtain ⟨b, hb⟩ := h x (List.mem_cons_self x xs)
    obtain ⟨l', hl', hlen, hpt⟩ := ih (fun a ha => h a (List.mem_cons_of_mem x ha))
    refine ⟨b :: l', ?_, by simp [hlen], ?_⟩
    · rw [List.mapM_cons, hb, hl']; rfl
    · intro j a hj
      cases j with
      | zero =>
        have : a = x := by simpa using hj.symm
        exact ⟨b, rfl, this ▸ hb⟩
      | succ j => exact hpt j a (by simpa using hj)

/-- Generic helper: a pointwise-total monadic Option map equals the pure map. -/
theorem list_mapM_eq_map {α β : Type} (f : α → Option β) (g : α → β) (l : List α)
    (h : ∀ a ∈ l, f a = some (g a)) : l.mapM f = some (l.map g) := by
  induction l with
  | nil => rfl
  | cons x xs ih =>
    rw [List.mapM_cons, h x (List.mem_cons_self x xs),
      ih (fun a ha => h a (List.mem_cons_of_mem x ha))]
    rfl

namespace UnAtlas

/-- Halving step: comparing against the next power of two is comparing the
doubled length against the current one. -/
theorem half_pow_succ_iff (m : ℕ) (q : ℚ) :
    (1/(2:ℚ)^(m+1) < q) ↔ (1/(2:ℚ)^m < 2*q) := by
  have h1 : (0:ℚ) < 2^(m+1) := by positivity
  have h2 : (0:ℚ) < 2^m := by positivity
  rw [div_lt_iff₀ h1, div_lt_iff₀ h2, pow_succ]
  constructor <;> intro h <;> linear_combination h

/-- The while loop of get_division_size stops exactly at the least n with
normalized_length > 1/2^n. -/
theorem gds_loop_is_least (q : ℚ) (hq : 0 < q) :
    1/(2:ℚ)^(gds_loop q hq) < q ∧
      ∀ m : ℕ, m < gds_loop q hq → ¬(1/(2:ℚ)^m < q) := by
  induction q, hq using gds_loop.induct with
  | case1 q hq hlt =>
    rw [gds_loop, if_pos hlt]
    exact ⟨by simpa using hlt, by omega⟩
  | case2 q hq hlt ih =>
    rw [gds_loop, if_neg hlt]
    obtain ⟨ih1, ih2⟩ := ih
    refine ⟨(half_pow_succ_iff _ _).mpr ih1, ?_⟩
    intro m hm
    cases m with
    | zero => simpa using hlt
    | succ k =>
      intro hk
      exact ih2 k (by omega) ((half_pow_succ_iff _ _).mp hk)

/-- Uniqueness of the least index: pin down the value of the loop. -/
theorem gds_loop_eq_of (q : ℚ) (hq : 0 < q) (n : ℕ)
    (h1 : 1/(2:ℚ)^n < q) (h2 : ∀ m : ℕ, m < n → ¬(1/(2:ℚ)^m < q)) :
    gds_loop q hq = n := by
  obtain ⟨g1, g2⟩ := gds_loop_is_least q hq
  rcases Nat.lt_trichotomy (gds_loop q hq) n with h | h | h
  · exact absurd g1 (h2 _ h)
  · exact h
  · exact absurd h1 (g2 _ h)

/-- Evaluation helper for get_division_size from the least-index property. -/
theorem get_division_size_eq (q : ℚ) (n : ℕ)
    (h1 : 1/(2:ℚ)^n < q) (h2 : ∀ m : ℕ, m < n → ¬(1/(2:ℚ)^m < q)) :
    get_division_size q = some ((n : ℤ) - 1) := by
  have hq : 0 < q := lt_trans (by positivity) h1
  rw [get_division_size, dif_pos hq, gds_loop_eq_of q hq n h1 h2]

/-- C7: every loop in these scripts is bounded; in particular get_division_size
terminates on every input: it raises (none) when normalized_length is not
positive, and for positive normalized_length it returns n - 1 for the least
n with normalized_length > 1/2^n.  Termination itself is witnessed by
gds_loop being a total Lean function. -/
theorem C7_get_division_size_total (q : ℚ) :
    (q ≤ 0 → get_division_size q = none) ∧
    (0 < q → ∃ n : ℕ, get_division_size q = some ((n : ℤ) - 1) ∧
      1/(2:ℚ)^n < q ∧ ∀ m : ℕ, m < n → ¬(1/(2:ℚ)^m < q)) := by
  constructor
  · intro hle
    rw [get_division_size, dif_neg (not_lt.mpr hle)]
  · intro hq
    obtain ⟨g1, g2⟩ := gds_loop_is_least q hq
    exact ⟨gds_loop q hq, by rw [get_division_size, dif_pos hq], g1, g2⟩

/-- Witness for C7 at normalized_length = 3/4: the loop stops at n = 1 and the
function returns 0. -/
theorem C7_witness :
    ∃ n : ℕ, get_division_size (3/4) = some ((n : ℤ) - 1) ∧
      1/(2:ℚ)^n < 3/4 ∧ ∀ m : ℕ, m < n → ¬(1/(2:ℚ)^m < 3/4) :=
  (C7_get_division_size_total (3/4)).2 (by norm_num)

/-- Shared evaluation lemma for the UnAtlas script: with the selection
bounding box and the division sizes given, the script maps every selected UV
through the subtract-and-scale transform and leaves the rest unchanged. -/
theorem unatlas_script_spec (allow_non_square : Bool) (uvs : List UV)
    (max_u min_u max_v min_v : ℚ) (kx ky : ℤ)
    (hsel : uvs.filter (·.select) ≠ [])
    (hmax_u : ((uvs.filter (·.select)).map (·.u)).max? = some max_u)
    (hmin_u : ((uvs.filter (·.select)).map (·.u)).min? = some min_u)
    (hmax_v : ((uvs.filter (·.select)).map (·.v)).max? = some max_v)
    (hmin_v : ((uvs.filter (·.select)).map (·.v)).min? = some min_v)
    (hkx : get_division_size (max_u - min_u) = some kx)
    (hky : get_division_size (max_v - min_v) = some ky) :
    unatlas_script allow_non_square uvs = some (uvs.map (fun uv =>
      if uv.select then
        { uv with
            u := (uv.u - (find_closest_division ((2:ℚ)^(if allow_non_square then kx else min kx ky)) min_u : ℚ)
                    / (2:ℚ)^(if allow_non_square then kx else min kx ky))
                  * (2:ℚ)^(if allow_non_square then kx else min kx ky),
            v := (uv.v - (find_closest_division ((2:ℚ)^(if allow_non_square then ky else min kx ky)) min_v : ℚ)
                    / (2:ℚ)^(if allow_non_square then ky else min kx ky))
                  * (2:ℚ)^(if allow_non_square then ky else min kx ky) }
      else uv)) := by
  rw [unatlas_script]
  simp only [List.isEmpty_eq_true, hsel, if_false]
  rw [hmax_u, hmin_u, hmax_v, hmin_v]
  simp only []
  rw [hkx, hky]

/-- C3 (amended): with a non-empty UV selection whose bounding box has
positive width and height and allow_non_square false, the script sets
d = 2^k with k the minimum of get_division_size of the bounding-box width
and height, sets the corner to (int(min_u*d)/d, int(min_v*d)/d) where int
truncates toward zero (this equals floor only for non-negative arguments),
and replaces every selected UV by (uv - corner) * d, leaving unselected UVs
unchanged. -/
theorem C3_corner_is_truncated (uvs : List UV)
    (max_u min_u max_v min_v : ℚ) (kx ky : ℤ)
    (hsel : uvs.filter (·.select) ≠ [])
    (hmax_u : ((uvs.filter (·.select)).map (·.u)).max? = some max_u)
    (hmin_u : ((uvs.filter (·.select)).map (·.u)).min? = some min_u)
    (hmax_v : ((uvs.filter (·.select)).map (·.v)).max? = some max_v)
    (hmin_v : ((uvs.filter (·.select)).map (·.v)).min? = some min_v)
    (hkx : get_division_size (max_u - min_u) = some kx)
    (hky : get_division_size (max_v - min_v) = some ky) :
    unatlas_script false uvs = some (uvs.map (fun uv =>
      if uv.select then
        { uv with
            u := (uv.u - (py_int (min_u * (2:ℚ)^(min kx ky)) : ℚ) / (2:ℚ)^(min kx ky))
                  * (2:ℚ)^(min kx ky),
            v := (uv.v - (py_int (min_v * (2:ℚ)^(min kx ky)) : ℚ) / (2:ℚ)^(min kx ky))
                  * (2:ℚ)^(min kx ky) }
      else uv)) := by
  have h := unatlas_script_spec false uvs max_u min_u max_v min_v kx ky hsel
    hmax_u hmin_u hmax_v hmin_v hkx hky
  simpa [find_closest_division] using h

/-- Witness for C3 (amended) on the selection (1/4,1/4), (3/4,3/4): bounding
box 1/2 by 1/2, division size 1 on each axis, d = 2, corner (0,0); the
selected UVs are scaled to (1/2,1/2) and (3/2,3/2). -/
theorem C3_witness :
    unatlas_script false [⟨1/4, 1/4, true⟩, ⟨3/4, 3/4, true⟩]
      = some [⟨1/2, 1/2, true⟩, ⟨3/2, 3/2, true⟩] := by
  have e2 : get_division_size ((1:ℚ)/2) = some 1 := by
    have h := get_division_size_eq (1/2) 2 (by norm_num)
      (by intro m hm; interval_cases m <;> norm_num)
    simpa using h
  have h := C3_corner_is_truncated [⟨1/4, 1/4, true⟩, ⟨3/4, 3/4, true⟩]
    (3/4) (1/4) (3/4) (1/4) 1 1 (by decide)
    (by norm_num [List.max?]) (by norm_num [List.min?])
    (by norm_num [List.max?]) (by norm_num [List.min?])
    (by rw [show ((3:ℚ)/4 - 1/4) = 1/2 by norm_num]; exact e2)
    (by rw [show ((3:ℚ)/4 - 1/4) = 1/2 by norm_num]; exact e2)
  rw [h]
  norm_num [py_int]

/-- C3 counterexample: on the selection (-1/2,0), (1/2,1/2) the bounding box
is 1 by 1/2, the division sizes are 0 and 1, so d = 2^0 = 1; the corner computed by the code uses Python int(), which truncates -1/2 toward zero to 0, so the
first selected UV keeps u = -1/2, while the floor-based corner of the claim
would move it to u = 1/2. -/
theorem C3_counterexample :
    unatlas_script false [⟨-(1/2), 0, true⟩, ⟨1/2, 1/2, true⟩]
      = some [⟨-(1/2), 0, true⟩, ⟨1/2, 1/2, true⟩] ∧
    get_division_size ((1:ℚ)/2 - -(1/2)) = some 0 ∧
    get_division_size ((1:ℚ)/2 - 0) = some 1 ∧
    ((-(1/2) : ℚ) - ((⌊(-(1/2) : ℚ) * (2:ℚ)^(min (0:ℤ) 1)⌋ : ℚ) / (2:ℚ)^(min (0:ℤ) 1)))
        * (2:ℚ)^(min (0:ℤ) 1) = 1/2 ∧
    ((1:ℚ)/2) ≠ -(1/2) := by
  have e1 : get_division_size (1:ℚ) = some 0 := by
    have h := get_division_size_eq 1 1 (by norm_num)
      (by intro m hm; interval_cases m; norm_num)
    simpa using h
  have e2 : get_division_size ((1:ℚ)/2) = some 1 := by
    have h := get_division_size_eq (1/2) 2 (by norm_num)
      (by intro m hm; interval_cases m <;> norm_num)
    simpa using h
  refine ⟨?_, by rw [show ((1:ℚ)/2 - -(1/2)) = 1 by norm_num]; exact e1,
    by rw [show ((1:ℚ)/2 - 0) = 1/2 by norm_num]; exact e2, by norm_num, by norm_num⟩
  have h := unatlas_script_spec false [⟨-(1/2), 0, true⟩, ⟨1/2, 1/2, true⟩]
    (1/2) (-(1/2)) (1/2) 0 0 1 (by decide)
    (by norm_num [List.max?]) (by norm_num [List.min?])
    (by norm_num [List.max?]) (by norm_num [List.min?])
    (by rw [show ((1:ℚ)/2 - -(1/2)) = 1 by norm_num]; exact e1)
    (by rw [show ((1:ℚ)/2 - 0) = 1/2 by norm_num]; exact e2)
  rw [h]
  norm_num [find_closest_division, py_int]

end UnAtlas

/-- Generic helper: the first element satisfying a predicate is the head of
the filtered list (the generator-with-next idiom of the Python code). -/
theorem list_find?_eq_head?_filter {α : Type} (p : α → Bool) (l : List α) :
    l.find? p = (l.filter p).head? := by
  induction l with
  | nil => rfl
  | cons x xs ih =>
    cases h : p x with
    | true =>
      rw [List.find?_cons_of_pos _ h, List.filter_cons_of_pos h]
      rfl
    | false =>
      rw [List.find?_cons_of_neg _ (by simp [h]),
        List.filter_cons_of_neg (by simp [h]), ih]

namespace BoneCycle

/-- Reordering the sibling list only permutes it. -/
theorem order_siblings_perm (direction : Direction) (order : Order)
    (siblings : List Bone) :
    (order_siblings direction order siblings).Perm siblings := by
  cases order with
  | alphabetical =>
    cases direction with
    | backwards => exact List.mergeSort_perm siblings _
    | forwards => exact List.mergeSort_perm siblings _
  | default =>
    cases direction with
    | backwards => exact List.reverse_perm siblings
    | forwards => exact List.Perm.refl siblings

/-- C1: when the sibling chain (the reordered siblings after the active bone
followed by those before it) contains a bone that is neither hidden nor
selection-hidden, execute finishes, makes the first such bone the active one
and sets its selection flags; when every bone of the chain is hidden or
selection-hidden, execute returns CANCELLED and leaves every bone (and the
active id) unchanged. -/
theorem C1_selects_first_selectable_sibling (direction : Direction) (extend : Bool)
    (order : Order) (siblings : List Bone) (active_id : ℕ) :
    (∀ next_bone,
      (siblings_chain (order_siblings direction order siblings)
          ((order_siblings direction order siblings).findIdx
            (fun b => b.id = active_id))).find? bone_selectable = some next_bone →
      (execute direction extend order siblings active_id).1 = Status.finished ∧
      (execute direction extend order siblings active_id).2.2 = next_bone.id ∧
      next_bone.hide = false ∧ next_bone.hide_select = false ∧
      ∃ b ∈ (execute direction extend order siblings active_id).2.1,
        b.id = next_bone.id ∧ b.select = true ∧ b.select_head = true
          ∧ b.select_tail = true) ∧
    ((∀ b ∈ siblings_chain (order_siblings direction order siblings)
          ((order_siblings direction order siblings).findIdx
            (fun b => b.id = active_id)),
        b.hide = true ∨ b.hide_select = true) →
      execute direction extend order siblings active_id
        = (Status.cancelled, siblings, active_id)) := by
  constructor
  · intro nb hfind
    have hhead : ((siblings_chain (order_siblings direction order siblings)
        ((order_siblings direction order siblings).findIdx
          (fun b => b.id = active_id))).filter bone_selectable).head? = some nb := by
      rw [← list_find?_eq_head?_filter]; exact hfind
    have hsel : bone_selectable nb = true := List.find?_some hfind
    have hsel2 : nb.hide = false ∧ nb.hide_select = false := by
      simpa [bone_selectable] using hsel
    have hmem_chain := List.mem_of_find?_eq_some hfind
    have hmem_ord : nb ∈ order_siblings direction order siblings := by
      rw [siblings_chain] at hmem_chain
      rcases List.mem_append.mp hmem_chain with h | h
      · exact List.drop_subset _ _ h
      · exact List.take_subset _ _ h
    have hmem : nb ∈ siblings := (order_siblings_perm direction order siblings).mem_iff.mp hmem_ord
    have hext : ∃ b0 ∈ (if extend then siblings
        else siblings.map (fun b => if b.id = active_id
          then set_bone_selection false b else b)), b0.id = nb.id := by
      cases extend with
      | true => exact ⟨nb, by simpa using hmem, rfl⟩
      | false =>
        refine ⟨if nb.id = active_id then set_bone_selection false nb else nb, ?_, ?_⟩
        · simpa using List.mem_map_of_mem _ hmem
        · by_cases h : nb.id = active_id <;> simp [h, set_bone_selection]
    obtain ⟨b0, hb0mem, hb0id⟩ := hext
    refine ⟨?_, ?_, hsel2.1, hsel2.2, ?_⟩
    · rw [execute]; simp only [hhead]
    · rw [execute]; simp only [hhead]
    · rw [execute]
      simp only [hhead]
      refine ⟨set_bone_selection true b0, ?_, ?_⟩
      · have := List.mem_map_of_mem
          (fun b => if b.id = nb.id then set_bone_selection true b else b) hb0mem
        simpa [hb0id] using this
      · exact ⟨by simp [set_bone_selection, hb0id], rfl, rfl, rfl⟩
  · intro hall
    have hfilter : (siblings_chain (order_siblings direction order siblings)
        ((order_siblings direction order siblings).findIdx
          (fun b => b.id = active_id))).filter bone_selectable = [] := by
      rw [List.filter_eq_nil_iff]
      intro b hb
      rcases hall b hb with h | h <;> simp [bone_selectable, h]
    rw [execute]
    simp only [hfilter, List.head?_nil]

/-- Witness for C1: from active bone 0, the hidden sibling 1 is skipped and
sibling 2 is selected and made active. -/
theorem C1_witness :
    (execute .forwards false .default
      [⟨0, "a", false, false, true, true, true⟩,
       ⟨1, "b", true, false, false, false, false⟩,
       ⟨2, "c", false, false, false, false, false⟩] 0).1 = Status.finished ∧
    (execute .forwards false .default
      [⟨0, "a", false, false, true, true, true⟩,
       ⟨1, "b", true, false, false, false, false⟩,
       ⟨2, "c", false, false, false, false, false⟩] 0).2.2 = 2 ∧
    ∃ b ∈ (execute .forwards false .default
      [⟨0, "a", false, false, true, true, true⟩,
       ⟨1, "b", true, false, false, false, false⟩,
       ⟨2, "c", false, false, false, false, false⟩] 0).2.1,
      b.id = 2 ∧ b.select = true ∧ b.select_head = true ∧ b.select_tail = true := by
  have h := (C1_selects_first_selectable_sibling .forwards false .default
    [⟨0, "a", false, false, true, true, true⟩,
     ⟨1, "b", true, false, false, false, false⟩,
     ⟨2, "c", false, false, false, false, false⟩] 0).1
    ⟨2, "c", false, false, false, false, false⟩ (by decide)
  exact ⟨h.1, h.2.1, h.2.2.2.2⟩

end BoneCycle

namespace SelectVG

/-- C2 (amended): with subset ALL and extend disabled, for every mesh object
that has vertex groups and a deform layer, execute sets the selection flag of
every non-hidden vertex to the comparison (of the chosen type) between the group count of the
vertex and the number property, where the count with
ignore_zero enabled is the number of groups with non-zero weight and with
ignore_zero disabled is the total number of groups on the vertex; hidden
vertices are left entirely unchanged. -/
theorem C2_select_by_count_all_subset (number : ℕ) (t : CmpType) (ignore_zero : Bool)
    (objs : List Obj) (j : ℕ) (obj : Obj)
    (hj : objs.get? j = some obj)
    (hvg : obj.vertex_group_names ≠ [])
    (hdl : obj.has_deform_layer = true)
    (i : ℕ) (v : Vert) (hv : obj.verts.get? i = some v) :
    ∃ obj', (execute number t .all ignore_zero false objs).get? j = some obj' ∧
      ∃ v', obj'.verts.get? i = some v' ∧
        (v.hide = true → v' = v) ∧
        (v.hide = false →
          v'.hide = v.hide ∧ v'.dvert = v.dvert ∧
          v'.select = apply_cmp t
            (if ignore_zero then (v.dvert.filter (fun p => p.2 ≠ 0)).length
             else v.dvert.length) number) := by
  have h1 : obj.vertex_group_names.isEmpty = false := by
    simpa [List.isEmpty_iff] using hvg
  refine ⟨process_obj number t .all ignore_zero false obj, ?_, ?_⟩
  · rw [execute, List.get?_map, hj]
    rfl
  · rw [process_obj]
    simp only [h1, Bool.false_eq_true, if_false, Bool.false_and, hdl,
      Option.isNone_none, Bool.true_or, Bool.and_self, if_true]
    refine ⟨if v.hide then v
      else { v with select := apply_cmp t (group_count ignore_zero none v.dvert) number },
      ?_, ?_, ?_⟩
    · rw [List.get?_map, hv]
      rfl
    · intro h
      simp [h]
    · intro h
      simp [h, group_count]

/-- C2 counterexample to the claim as stated: with extend enabled and the
single non-hidden vertex already selected, execute leaves the mesh untouched
(the all-selected shortcut fires), so the vertex keeps select = true even
though the comparison prescribed by the claim, 0 > 0, is false. -/
theorem C2_counterexample :
    execute 0 .greater_than .all true true
        [⟨["g"], [], [⟨false, true, []⟩], true⟩]
      = [⟨["g"], [], [⟨false, true, []⟩], true⟩] ∧
    apply_cmp .greater_than (group_count true none []) 0 = false := by
  decide

/-- Witness for C2 (amended): a vertex in three groups, one with zero weight,
compared with greater-than against 2 under ignore_zero: its non-zero count
is 2, so it ends up deselected. -/
theorem C2_witness :
    ∃ obj', (execute 2 .greater_than .all true false
        [⟨["g1", "g2", "g3"], [], [⟨false, false, [(0, 1), (1, 1/2), (2, 0)]⟩], true⟩]).get? 0
          = some obj' ∧
      ∃ v', obj'.verts.get? 0 = some v' ∧
        ((⟨false, false, [(0, 1), (1, 1/2), (2, 0)]⟩ : Vert).hide = true →
          v' = ⟨false, false, [(0, 1), (1, 1/2), (2, 0)]⟩) ∧
        ((⟨false, false, [(0, 1), (1, 1/2), (2, 0)]⟩ : Vert).hide = false →
          v'.hide = (⟨false, false, [(0, 1), (1, 1/2), (2, 0)]⟩ : Vert).hide ∧
          v'.dvert = (⟨false, false, [(0, 1), (1, 1/2), (2, 0)]⟩ : Vert).dvert ∧
          v'.select = apply_cmp .greater_than
            (if true then ((⟨false, false, [(0, 1), (1, 1/2), (2, 0)]⟩ : Vert).dvert.filter
                (fun p => p.2 ≠ 0)).length
             else (⟨false, false, [(0, 1), (1, 1/2), (2, 0)]⟩ : Vert).dvert.length) 2) :=
  C2_select_by_count_all_subset 2 .greater_than true
    [⟨["g1", "g2", "g3"], [], [⟨false, false, [(0, 1), (1, 1/2), (2, 0)]⟩], true⟩] 0
    ⟨["g1", "g2", "g3"], [], [⟨false, false, [(0, 1), (1, 1/2), (2, 0)]⟩], true⟩
    rfl (by decide) rfl 0 ⟨false, false, [(0, 1), (1, 1/2), (2, 0)]⟩ rfl

end SelectVG

namespace CopyUV

/-- C4: when the not-found action is one of the create options and some mesh
in edit mode is missing the target UV map while already holding the maximum
number of UV maps, execute reports an error naming the (first such) offending
mesh and returns with every mesh exactly as it was: no UV map is created and
no attribute is copied on any mesh. -/
theorem C4_full_mesh_cancels_atomically (p : Params) (uv_select_sync : Bool)
    (meshes : List Mesh)
    (hact : p.action = NotFoundAction.create ∨ p.action = NotFoundAction.create_init)
    (m : Mesh) (hm : m ∈ meshes) (hmiss : p.target ∉ m.uv_layer_names)
    (hfull : max_uv_layers ≤ m.uv_layer_names.length) :
    ∃ offending, find_offending_mesh p.target meshes = some offending ∧
      offending ∈ meshes ∧ p.target ∉ offending.uv_layer_names ∧
      max_uv_layers ≤ offending.uv_layer_names.length ∧
      execute p uv_select_sync meshes
        = some (⟨true, cannot_add_message p.target offending.name⟩, meshes) := by
  have hpred : (p.target ∉ m.uv_layer_names
      && m.uv_layer_names.length ≥ max_uv_layers) = true := by
    simp only [Bool.and_eq_true, decide_eq_true_eq]
    exact ⟨by simpa using hmiss, hfull⟩
  have hsome : (find_offending_mesh p.target meshes).isSome := by
    rw [find_offending_mesh]
    exact List.find?_isSome.mpr ⟨m, hm, hpred⟩
  obtain ⟨offending, hoff⟩ := Option.isSome_iff_exists.mp hsome
  have hoff2 : meshes.find? (fun m => p.target ∉ m.uv_layer_names
      && m.uv_layer_names.length ≥ max_uv_layers) = some offending := by
    rw [← find_offending_mesh]; exact hoff
  have hoffpred := List.find?_some hoff2
  simp only [Bool.and_eq_true, decide_eq_true_eq] at hoffpred
  have hoffmem := List.mem_of_find?_eq_some hoff2
  have hne : meshes.isEmpty = false := by
    cases meshes with
    | nil => cases hm
    | cons x xs => rfl
  refine ⟨offending, hoff, hoffmem, by simpa using hoffpred.1, hoffpred.2, ?_⟩
  rw [execute]
  simp only [hne, Bool.false_eq_true, if_false, if_pos hact, hoff]

/-- Witness for C4: one mesh already holding eight UV maps and missing the
target map; execute reports the error and returns the input unchanged. -/
theorem C4_witness :
    ∃ offending, find_offending_mesh "t"
        [⟨"cube", ["a", "b", "c", "d", "e", "f", "g", "h"], 0, []⟩] = some offending ∧
      offending ∈ [(⟨"cube", ["a", "b", "c", "d", "e", "f", "g", "h"], 0, []⟩ : Mesh)] ∧
      "t" ∉ offending.uv_layer_names ∧
      max_uv_layers ≤ offending.uv_layer_names.length ∧
      execute ⟨true, false, true, true, false, false, "t", NotFoundAction.create⟩ false
          [⟨"cube", ["a", "b", "c", "d", "e", "f", "g", "h"], 0, []⟩]
        = some (⟨true, cannot_add_message "t" offending.name⟩,
            [⟨"cube", ["a", "b", "c", "d", "e", "f", "g", "h"], 0, []⟩]) :=
  C4_full_mesh_cancels_atomically
    ⟨true, false, true, true, false, false, "t", NotFoundAction.create⟩ false
    [⟨"cube", ["a", "b", "c", "d", "e", "f", "g", "h"], 0, []⟩]
    (Or.inl rfl)
    ⟨"cube", ["a", "b", "c", "d", "e", "f", "g", "h"], 0, []⟩
    (List.mem_singleton.mpr rfl) (by decide) (by decide)

end CopyUV

/-- C5: ClearPendingChanges.poll returns true exactly when the mode is
EDIT_MESH and every mesh in edit mode has shape keys, setting the message
Must be in edit mode, respectively All meshes in edit mode must have shape
keys, when it fails; and the select-by-number-of-vertex-groups poll returns
true exactly when the mode is EDIT_MESH with at least one object in edit
mode, vertex selection mode is enabled, and some object has vertex groups. -/
theorem C5_poll_characterisation (mode : String) (objs_have_shape_keys : List Bool)
    (vertex_select_mode : Bool) (objs : List SelectVG.Obj) :
    ((ShapeOps.clear_pending_poll mode objs_have_shape_keys).1 = true ↔
      (mode = "EDIT_MESH" ∧ ∀ b ∈ objs_have_shape_keys, b = true)) ∧
    (mode ≠ "EDIT_MESH" →
      ShapeOps.clear_pending_poll mode objs_have_shape_keys
        = (false, some "Must be in edit mode")) ∧
    (mode = "EDIT_MESH" → ¬(∀ b ∈ objs_have_shape_keys, b = true) →
      ShapeOps.clear_pending_poll mode objs_have_shape_keys
        = (false, some "All meshes in edit mode must have shape keys")) ∧
    ((SelectVG.select_vg_poll mode vertex_select_mode objs).1 = true ↔
      (mode = "EDIT_MESH" ∧ objs ≠ [] ∧ vertex_select_mode = true ∧
        ∃ o ∈ objs, o.vertex_group_names ≠ [])) := by
  have hbridge : (objs_have_shape_keys.all id = true)
      ↔ (∀ b ∈ objs_have_shape_keys, b = true) := by
    rw [List.all_eq_true]
    constructor <;> intro h b hb <;> simpa using h b hb
  have hclear : ShapeOps.clear_pending_poll mode objs_have_shape_keys
      = if mode ≠ "EDIT_MESH" then (false, some "Must be in edit mode")
        else if !objs_have_shape_keys.all id then
          (false, some "All meshes in edit mode must have shape keys")
        else (true, none) := by
    rw [ShapeOps.clear_pending_poll, ShapeOps.poll_mode]
    split_ifs with h <;> rfl
  refine ⟨?_, ?_, ?_, ?_⟩
  · rw [hclear]
    constructor
    · intro h
      by_cases hmode : mode = "EDIT_MESH"
      · refine ⟨hmode, hbridge.mp ?_⟩
        by_cases hall : objs_have_shape_keys.all id = true
        · exact hall
        · simp [hmode, hall] at h
      · simp [hmode] at h
    · rintro ⟨hmode, hforall⟩
      simp [hmode, hbridge.mpr hforall]
  · intro hmode
    rw [hclear, if_pos hmode]
  · intro hmode hnall
    have hall : objs_have_shape_keys.all id = false := by
      cases h : objs_have_shape_keys.all id
      · rfl
      · exact absurd (hbridge.mp h) hnall
    rw [hclear]
    simp [hmode, hall]
  · rw [SelectVG.select_vg_poll]
    constructor
    · intro h
      by_cases h1 : mode = "EDIT_MESH" ∧ objs ≠ []
      · rw [if_pos h1] at h
        by_cases h2 : vertex_select_mode = true
        · rw [if_pos h2] at h
          by_cases h3 : objs.any (fun o => !o.vertex_group_names.isEmpty) = true
          · obtain ⟨o, ho, hno⟩ := List.any_eq_true.mp h3
            refine ⟨h1.1, h1.2, h2, o, ho, ?_⟩
            simpa [List.isEmpty_iff] using hno
          · simp [h3] at h
        · simp [h2] at h
      · simp [h1] at h
    · rintro ⟨hmode, hne, hv, o, ho, hn⟩
      have h3 : objs.any (fun o => !o.vertex_group_names.isEmpty) = true :=
        List.any_eq_true.mpr ⟨o, ho, by simpa [List.isEmpty_iff] using hn⟩
      simp [hmode, hne, hv, h3]

/-- Witness for C5: a weight-paint-mode context fails the clear poll with the
edit-mode message, and an edit-mesh context with vertex mode and a grouped
object passes the select-by-vertex-groups poll. -/
theorem C5_witness :
    ShapeOps.clear_pending_poll "PAINT_WEIGHT" [true]
      = (false, some "Must be in edit mode") ∧
    (SelectVG.select_vg_poll "EDIT_MESH" true [⟨["g"], [], [], true⟩]).1 = true := by
  constructor
  · exact (C5_poll_characterisation "PAINT_WEIGHT" [true] true
      [⟨["g"], [], [], true⟩]).2.1 (by decide)
  · exact (C5_poll_characterisation "EDIT_MESH" [true] true
      [⟨["g"], [], [], true⟩]).2.2.2.mpr
      ⟨rfl, by decide, rfl, ⟨["g"], [], [], true⟩, by decide, by decide⟩

namespace ShapeOps

/-- C6: with mix 0 execute changes nothing; with any other mix, every
selected non-hidden vertex of every eligible mesh gets the coordinate
rel + average for mix 1 and rel + lerp(movement, average, mix) otherwise,
where the average is the sum of the movements (co - rel) collected over all
selected non-hidden vertices of all eligible meshes divided by their
count. -/
theorem C6_average_shape_key_movement (mix : ℚ) (meshes : List AMesh) :
    (mix = 0 → average_execute mix meshes = meshes) ∧
    (mix ≠ 0 →
      ∀ j m, meshes.get? j = some m → eligible m = true →
      ∀ i v, m.verts.get? i = some v → v.select = true → v.hide = false →
      ∃ m', (average_execute mix meshes).get? j = some m' ∧
        ∃ v', m'.verts.get? i = some v' ∧
          v'.rel = v.rel ∧ v'.select = v.select ∧ v'.hide = v.hide ∧
          v'.co = vadd v.rel
            (if mix = 1
              then vdiv ((collect_movements meshes).foldl (fun s p => vadd s p.2) (0, 0, 0))
                ((collect_movements meshes).length : ℚ)
              else lerp (vsub v.co v.rel)
                (vdiv ((collect_movements meshes).foldl (fun s p => vadd s p.2) (0, 0, 0))
                  ((collect_movements meshes).length : ℚ)) mix)) := by
  constructor
  · intro h
    rw [average_execute, if_pos h]
  · intro hmix j m hj helig i v hv hsel hhide
    have hmmem : m ∈ meshes := List.get?_mem hj
    have hvmem : v ∈ m.verts := List.get?_mem hv
    have hvproc : v ∈ processed m := by
      rw [processed, List.mem_filter]
      exact ⟨hvmem, by simp [hsel, hhide]⟩
    have hcol : (v.rel, vsub v.co v.rel) ∈ collect_movements meshes := by
      rw [collect_movements, List.mem_flatMap]
      exact ⟨m, List.mem_filter.mpr ⟨hmmem, helig⟩,
        List.mem_map_of_mem _ hvproc⟩
    have hne : (collect_movements meshes).isEmpty = false := by
      simpa [List.isEmpty_iff] using List.ne_nil_of_mem hcol
    rw [average_execute, if_neg hmix]
    simp only [hne, Bool.false_eq_true, if_false]
    refine ⟨_, by rw [List.get?_map, hj]; rfl, ?_⟩
    simp only [helig, if_true]
    refine ⟨_, by rw [List.get?_map, hv]; rfl, ?_⟩
    simp [hsel, hhide]
    split_ifs <;> rfl

/-- Witness for C6: two selected vertices with movements (1,0,0) and (3,0,0)
from rel = 0; at mix 1 the vertex coordinate becomes rel + average. -/
theorem C6_witness :
    ∃ m', (average_execute 1
        [⟨true, false, true, false,
          [⟨(1, 0, 0), (0, 0, 0), true, false⟩,
           ⟨(3, 0, 0), (0, 0, 0), true, false⟩]⟩]).get? 0 = some m' ∧
      ∃ v', m'.verts.get? 0 = some v' ∧
        v'.rel = ((0 : ℚ), (0 : ℚ), (0 : ℚ)) ∧ v'.select = true ∧ v'.hide = false ∧
        v'.co = vadd ((0 : ℚ), (0 : ℚ), (0 : ℚ))
          (if (1 : ℚ) = 1
            then vdiv ((collect_movements
                [⟨true, false, true, false,
                  [⟨(1, 0, 0), (0, 0, 0), true, false⟩,
                   ⟨(3, 0, 0), (0, 0, 0), true, false⟩]⟩]).foldl
                (fun s p => vadd s p.2) (0, 0, 0))
              ((collect_movements
                [⟨true, false, true, false,
                  [⟨(1, 0, 0), (0, 0, 0), true, false⟩,
                   ⟨(3, 0, 0), (0, 0, 0), true, false⟩]⟩]).length : ℚ)
            else lerp (vsub ((1 : ℚ), (0 : ℚ), (0 : ℚ)) ((0 : ℚ), (0 : ℚ), (0 : ℚ)))
              (vdiv ((collect_movements
                [⟨true, false, true, false,
                  [⟨(1, 0, 0), (0, 0, 0), true, false⟩,
                   ⟨(3, 0, 0), (0, 0, 0), true, false⟩]⟩]).foldl
                (fun s p => vadd s p.2) (0, 0, 0))
              ((collect_movements
                [⟨true, false, true, false,
                  [⟨(1, 0, 0), (0, 0, 0), true, false⟩,
                   ⟨(3, 0, 0), (0, 0, 0), true, false⟩]⟩]).length : ℚ)) 1) :=
  (C6_average_shape_key_movement 1
    [⟨true, false, true, false,
      [⟨(1, 0, 0), (0, 0, 0), true, false⟩,
       ⟨(3, 0, 0), (0, 0, 0), true, false⟩]⟩]).2
    (by norm_num) 0
    ⟨true, false, true, false,
      [⟨(1, 0, 0), (0, 0, 0), true, false⟩,
       ⟨(3, 0, 0), (0, 0, 0), true, false⟩]⟩
    rfl rfl 0 ⟨(1, 0, 0), (0, 0, 0), true, false⟩ rfl rfl rfl

end ShapeOps

namespace ShapeOps

/-- Vector truthiness of a difference: any(co - active) is exactly the
inequality test of the standalone script. -/
theorem any_nonzero_vsub (a b : Vec3) : any_nonzero (vsub a b) = true ↔ a ≠ b := by
  rw [any_nonzero, vsub, Bool.not_eq_true', ← Bool.not_eq_true]
  apply not_congr
  simp only [Bool.and_eq_true, beq_iff_eq, sub_eq_zero, Prod.ext_iff]
  tauto

/-- C8: the ADD branch of TransferPendingChanges and the standalone
transferPendingEditChanges script perform the same per-vertex transfer, so on
a mesh where every vertex is selected and none is hidden they produce
identical final shape-layer values and coordinates. -/
theorem C8_operator_add_matches_script (verts : List TVert)
    (h : ∀ v ∈ verts, v.select = true ∧ v.hide = false) :
    operator_transfer_add verts = script_transfer verts := by
  rw [operator_transfer_add, script_transfer]
  apply List.map_congr_left
  intro v hv
  obtain ⟨hsel, hhide⟩ := h v hv
  simp only [hsel, hhide, Bool.not_false, Bool.and_self, if_true]
  by_cases hco : v.co = v.active
  · rw [if_neg, if_neg]
    · simpa using hco
    · rw [any_nonzero_vsub]
      simpa using hco
  · rw [if_pos ((any_nonzero_vsub _ _).mpr hco), if_pos hco]

/-- Witness for C8: a single selected, visible vertex with a pending change;
operator and script agree. -/
theorem C8_witness :
    operator_transfer_add [⟨(1, 2, 3), (0, 2, 3), (5, 5, 5), true, false⟩]
      = script_transfer [⟨(1, 2, 3), (0, 2, 3), (5, 5, 5), true, false⟩] :=
  C8_operator_add_matches_script _ (by
    intro v hv
    rw [List.mem_singleton] at hv
    subst hv
    exact ⟨rfl, rfl⟩)

end ShapeOps

namespace ShapeOps

/-- When the total selection count is zero, no vertex is selected. -/
theorem total_vert_sel_zero {verts : List CVert} (h : total_vert_sel verts = 0) :
    ∀ v ∈ verts, v.select = false := by
  rw [total_vert_sel, List.length_eq_zero] at h
  intro v hv
  have := List.filter_eq_nil_iff.mp h v hv
  simpa using this

/-- Per-mesh behaviour of ClearPendingChanges.execute. -/
theorem clear_mesh_spec (m : CMesh)
    (hidx : m.active_shape_key_index < m.shape_layer_count)
    (hlen : ∀ v ∈ m.verts, m.shape_layer_count ≤ v.shape.length) :
    ∃ m', clear_mesh m = some m' ∧
      (total_vert_sel m.verts = 0 → m' = m) ∧
      m'.active_shape_key_index = m.active_shape_key_index ∧
      m'.shape_layer_count = m.shape_layer_count ∧
      m'.verts.length = m.verts.length ∧
      ∀ i v, m.verts.get? i = some v → ∃ v', m'.verts.get? i = some v' ∧
        v'.shape = v.shape ∧ v'.select = v.select ∧ v'.hide = v.hide ∧
        (v.select = true → v.hide = false →
          v.shape.get? m.active_shape_key_index = some v'.co) ∧
        (¬(v.select = true ∧ v.hide = false) → v' = v) := by
  by_cases h0 : total_vert_sel m.verts = 0
  · refine ⟨m, by rw [clear_mesh, if_pos h0], fun _ => rfl, rfl, rfl, rfl, ?_⟩
    intro i v hv
    refine ⟨v, hv, rfl, rfl, rfl, ?_, fun _ => rfl⟩
    intro hsel _
    exact absurd hsel (by simp [total_vert_sel_zero h0 v (List.get?_mem hv)])
  · have hstep : ∀ v ∈ m.verts, ∃ v',
        (if v.select && !v.hide then
          (v.shape.get? m.active_shape_key_index).map (fun c => { v with co := c })
        else some v) = some v' := by
      intro v hv
      by_cases hc : (v.select && !v.hide) = true
      · rw [if_pos hc]
        have hne : v.shape.get? m.active_shape_key_index ≠ none := by
          rw [Ne, List.get?_eq_none]
          have := hlen v hv
          omega
        obtain ⟨c, hcq⟩ := Option.ne_none_iff_exists'.mp hne
        exact ⟨{ v with co := c }, by rw [hcq]; rfl⟩
      · rw [if_neg hc]
        exact ⟨v, rfl⟩
    obtain ⟨vs, hvs, hvslen, hvspt⟩ := list_mapM_some _ m.verts hstep
    refine ⟨{ m with verts := vs }, ?_, fun h => absurd h h0, rfl, rfl, hvslen, ?_⟩
    · rw [clear_mesh, if_neg h0, if_pos hidx]
      rw [hvs]
      rfl
    · intro i v hv
      obtain ⟨v', hv', hfv⟩ := hvspt i v hv
      refine ⟨v', hv', ?_⟩
      by_cases hc : (v.select && !v.hide) = true
      · rw [if_pos hc] at hfv
        obtain ⟨c, hcq, hvc⟩ := Option.map_eq_some'.mp hfv
        subst hvc
        refine ⟨rfl, rfl, rfl, fun _ _ => hcq, ?_⟩
        intro hns
        exact absurd (by simpa [Bool.and_eq_true] using hc) hns
      · rw [if_neg hc] at hfv
        have hveq : v' = v := by injection hfv.symm
        subst hveq
        refine ⟨rfl, rfl, rfl, ?_, fun _ => rfl⟩
        intro hsel hhide
        exact absurd (by simp [hsel, hhide]) hc

/-- C10: ClearPendingChanges.execute only rewrites the coordinates of
selected, non-hidden vertices, setting each to that vertex's value in the
active shape layer; unselected or hidden vertices, all shape-layer data, and
meshes with no selected vertex are left unchanged. -/
theorem C10_clear_pending_frame (meshes : List CMesh)
    (hidx : ∀ m ∈ meshes, m.active_shape_key_index < m.shape_layer_count)
    (hlen : ∀ m ∈ meshes, ∀ v ∈ m.verts, m.shape_layer_count ≤ v.shape.length) :
    ∃ out, clear_execute meshes = some out ∧ out.length = meshes.length ∧
      ∀ j m, meshes.get? j = some m → ∃ m', out.get? j = some m' ∧
        (total_vert_sel m.verts = 0 → m' = m) ∧
        m'.active_shape_key_index = m.active_shape_key_index ∧
        m'.shape_layer_count = m.shape_layer_count ∧
        m'.verts.length = m.verts.length ∧
        ∀ i v, m.verts.get? i = some v → ∃ v', m'.verts.get? i = some v' ∧
          v'.shape = v.shape ∧ v'.select = v.select ∧ v'.hide = v.hide ∧
          (v.select = true → v.hide = false →
            v.shape.get? m.active_shape_key_index = some v'.co) ∧
          (¬(v.select = true ∧ v.hide = false) → v' = v) := by
  have hstep : ∀ m ∈ meshes, ∃ m', clear_mesh m = some m' := by
    intro m hm
    obtain ⟨m', hm', _⟩ := clear_mesh_spec m (hidx m hm) (hlen m hm)
    exact ⟨m', hm'⟩
  obtain ⟨out, hout, houtlen, houtpt⟩ := list_mapM_some _ meshes hstep
  refine ⟨out, hout, houtlen, ?_⟩
  intro j m hj
  obtain ⟨m', hm', hfm⟩ := houtpt j m hj
  obtain ⟨m'', hm'', hprops⟩ := clear_mesh_spec m (hidx m (List.get?_mem hj))
    (hlen m (List.get?_mem hj))
  have heq : m'' = m' := by
    rw [hfm] at hm''
    injection hm'' with h
    exact h.symm
  subst heq
  exact ⟨m'', hm', hprops⟩

/-- Witness for C10: one mesh, one selected visible vertex whose coordinate
is reset to its active-shape-layer value (1,2,3). -/
theorem C10_witness :
    ∃ out, clear_execute [⟨0, 1, [⟨(5, 5, 5), [(1, 2, 3)], true, false⟩]⟩] = some out ∧
      out.length = 1 ∧
      ∀ j m, [(⟨0, 1, [⟨(5, 5, 5), [(1, 2, 3)], true, false⟩]⟩ : CMesh)].get? j = some m →
        ∃ m', out.get? j = some m' ∧
        (total_vert_sel m.verts = 0 → m' = m) ∧
        m'.active_shape_key_index = m.active_shape_key_index ∧
        m'.shape_layer_count = m.shape_layer_count ∧
        m'.verts.length = m.verts.length ∧
        ∀ i v, m.verts.get? i = some v → ∃ v', m'.verts.get? i = some v' ∧
          v'.shape = v.shape ∧ v'.select = v.select ∧ v'.hide = v.hide ∧
          (v.select = true → v.hide = false →
            v.shape.get? m.active_shape_key_index = some v'.co) ∧
          (¬(v.select = true ∧ v.hide = false) → v' = v) := by
  have h := C10_clear_pending_frame [⟨0, 1, [⟨(5, 5, 5), [(1, 2, 3)], true, false⟩]⟩]
    (by intro m hm; rw [List.mem_singleton] at hm; subst hm; decide)
    (by
      intro m hm; rw [List.mem_singleton] at hm; subst hm
      intro v hv; rw [List.mem_singleton] at hv; subst hv
      decide)
  simpa using h

end ShapeOps

namespace MoveUV

/-- C9: for a mesh whose active UV layer index is strictly between 0 and the
layer count (and whose layers all carry equally many elements, as one mesh's
layers do), moving the active layer up and then down restores every layer
name, every element, and the active index: the double swap is an
involution. -/
theorem C9_move_up_down_restores (m : Mesh) (k : ℕ)
    (h0 : 0 < m.active_index) (hlt : m.active_index < m.uv_layers.length)
    (hlen : ∀ l ∈ m.uv_layers, l.data.length = k) :
    (move_active_uv_layer_up m).bind move_active_uv_layer_down = some m := by
  have h1lt : m.active_index - 1 < m.uv_layers.length := by omega
  have h1 : m.uv_layers.get? (m.active_index - 1)
      = some (m.uv_layers.get ⟨m.active_index - 1, h1lt⟩) := List.get?_eq_get h1lt
  have h2 : m.uv_layers.get? m.active_index
      = some (m.uv_layers.get ⟨m.active_index, hlt⟩) := List.get?_eq_get hlt
  set l1 := m.uv_layers.get ⟨m.active_index - 1, h1lt⟩ with hl1
  set l2 := m.uv_layers.get ⟨m.active_index, hlt⟩ with hl2
  have hlen1 : l1.data.length = k := hlen l1 (List.get_mem _ _ _)
  have hlen2 : l2.data.length = k := hlen l2 (List.get_mem _ _ _)
  have htake1 : l2.data.take l1.data.length = l2.data := by
    rw [hlen1, ← hlen2, List.take_length]
  have hdrop1 : l1.data ++ l2.data.drop l1.data.length = l1.data := by
    rw [hlen1, ← hlen2, List.drop_length, List.append_nil]
  have htake2 : l1.data.take l2.data.length = l1.data := by
    rw [hlen2, ← hlen1, List.take_length]
  have hdrop2 : l2.data ++ l1.data.drop l2.data.length = l2.data := by
    rw [hlen2, ← hlen1, List.drop_length, List.append_nil]
  rw [move_active_uv_layer_up, if_pos h0, swap_uv_layers, h1, h2]
  simp only []
  rw [if_pos (by rw [hlen1, hlen2] : l1.data.length ≤ l2.data.length),
    htake1, hdrop1, Option.map_some', Option.some_bind]
  rw [move_active_uv_layer_down]
  simp only [List.length_set]
  rw [if_pos (show m.active_index - 1 < m.uv_layers.length - 1 by omega)]
  have g1 : ((m.uv_layers.set (m.active_index - 1) ⟨l2.name, l2.data⟩).set m.active_index
      ⟨l1.name, l1.data⟩).get? (m.active_index - 1) = some ⟨l2.name, l2.data⟩ := by
    rw [List.get?_set_ne _ _ (show m.active_index ≠ m.active_index - 1 by omega),
      List.get?_set_eq, h1]
    rfl
  have g2 : ((m.uv_layers.set (m.active_index - 1) ⟨l2.name, l2.data⟩).set m.active_index
      ⟨l1.name, l1.data⟩).get? (m.active_index - 1 + 1) = some ⟨l1.name, l1.data⟩ := by
    rw [show m.active_index - 1 + 1 = m.active_index by omega, List.get?_set_eq,
      List.get?_set_ne _ _ (show m.active_index - 1 ≠ m.active_index by omega), h2]
    rfl
  rw [swap_uv_layers, g1, g2]
  simp only []
  rw [if_pos (by rw [hlen1, hlen2] :
      (⟨l2.name, l2.data⟩ : UVLayer).data.length ≤ (⟨l1.name, l1.data⟩ : UVLayer).data.length),
    htake2, hdrop2, Option.map_some']
  have hfinal : ((((m.uv_layers.set (m.active_index - 1) ⟨l2.name, l2.data⟩).set m.active_index
      ⟨l1.name, l1.data⟩).set (m.active_index - 1) ⟨l1.name, l1.data⟩).set
      (m.active_index - 1 + 1) ⟨l2.name, l2.data⟩) = m.uv_layers := by
    rw [show m.active_index - 1 + 1 = m.active_index by omega]
    apply List.ext_get?
    intro n
    rcases eq_or_ne n m.active_index with rfl | hn1
    · rw [List.get?_set_eq,
        List.get?_set_ne _ _ (show m.active_index - 1 ≠ m.active_index by omega),
        List.get?_set_eq,
        List.get?_set_ne _ _ (show m.active_index - 1 ≠ m.active_index by omega), h2]
      rfl
    · rcases eq_or_ne n (m.active_index - 1) with rfl | hn2
      · rw [List.get?_set_ne _ _ (show m.active_index ≠ m.active_index - 1 by omega),
          List.get?_set_eq,
          List.get?_set_ne _ _ (show m.active_index ≠ m.active_index - 1 by omega),
          List.get?_set_eq, h1]
        rfl
      · rw [List.get?_set_ne _ _ hn1.symm, List.get?_set_ne _ _ hn2.symm,
          List.get?_set_ne _ _ hn1.symm, List.get?_set_ne _ _ hn2.symm]
  rw [show m.active_index - 1 + 1 = m.active_index by omega]
  rw [show m.active_index - 1 + 1 = m.active_index by omega] at hfinal
  rw [hfinal]

/-- Witness for C9 on a two-layer mesh with active index 1. -/
theorem C9_witness :
    (move_active_uv_layer_up
        ⟨[⟨"a", [⟨0, 0, false, true⟩]⟩, ⟨"b", [⟨1, 1, true, false⟩]⟩], 1⟩).bind
      move_active_uv_layer_down
      = some ⟨[⟨"a", [⟨0, 0, false, true⟩]⟩, ⟨"b", [⟨1, 1, true, false⟩]⟩], 1⟩ :=
  C9_move_up_down_restores
    ⟨[⟨"a", [⟨0, 0, false, true⟩]⟩, ⟨"b", [⟨1, 1, true, false⟩]⟩], 1⟩ 1
    (by decide) (by decide)
    (by
      intro l hl
      rcases List.mem_pair.mp hl with rfl | rfl <;> rfl)

end MoveUV
